import Mathlib

/-!
Verification of the `SearchStore` multi-category search aggregator
(`src/lib/services/search-store.svelte.ts`).

The store's reactive fields are embedded as a plain `StoreState` record.
Asynchronous fetches are embedded by splitting each store method into its
synchronous issue phase (run when the method is called, up to the first
`await`) and its response phase (run when a fetch settles); a batch of
in-flight fetches is a list of response events folded over the state, which
models the JavaScript event loop's single-threaded interleaving.  Machine
numbers are modelled as `Int` (the store only adds, subtracts and compares
them); item `id`s that may be `undefined`/`null` are `Option Int`;
`popularity`, an optional number used only through its linear order by the
sort comparator, is `Option Int`.  String-keyed parameter objects
(`tmdbParams`, `filterParams`) are association lists in JavaScript property
insertion order with values taken in their JSON-serialized form, so that
list equality coincides with `JSON.stringify` equality for these flat
objects.
-/

namespace TrivenSearch

/-- One transformed TMDB list item as consumed by the aggregator: only `id`
and `popularity` are inspected (`TMDBTransformedListItem` is otherwise
opaque here). `id` is `none` when the source value is `undefined`/`null`. -/
structure Item where
  id : Option Int
  popularity : Option Int
  deriving DecidableEq

/-- The `SearchResult` response shape
`{ results, page, total_pages, total_results }`. -/
structure SearchResult where
  results : List Item
  page : Int
  total_pages : Int
  total_results : Int
  deriving DecidableEq

/-- The `ParsedSearchQuery` produced by the query parser: free-text `query`,
the flattened `tmdbParams` object (which may include a `"query"` key),
the suggested `searchMode` string, and warnings. -/
structure ParsedSearchQuery where
  query : String
  tmdbParams : List (String × String)
  searchMode : String
  warnings : List String
  deriving DecidableEq

/-- A fetchable media category: `"movie" | "tv" | "person" | "company"`. -/
inductive MType where
  | movie
  | tv
  | person
  | company
  deriving DecidableEq

/-- The `mediaType` view selection:
`"movie" | "tv" | "person" | "company" | "both"`. -/
inductive MSel where
  | movie
  | tv
  | person
  | company
  | both
  deriving DecidableEq

/-- The selection value naming exactly one category, used to embed the
`this.mediaType === type` comparisons. -/
def MSel.ofType : MType → MSel
  | .movie => .movie
  | .tv => .tv
  | .person => .person
  | .company => .company

/-- The `SearchStore`'s `$state` fields, as one record. -/
structure StoreState where
  searchQuery : String
  rawSearchString : String
  parsedSearch : Option ParsedSearchQuery
  movieResults : List Item
  tvResults : List Item
  personResults : List Item
  companyResults : List Item
  loading : Bool
  error : Option String
  moviePage : Int
  tvPage : Int
  personPage : Int
  companyPage : Int
  totalResultsMovie : Int
  totalResultsTV : Int
  totalResultsPerson : Int
  totalResultsCompany : Int
  movieHasMore : Bool
  tvHasMore : Bool
  personHasMore : Bool
  companyHasMore : Bool
  mediaType : MSel
  warnings : List String
  filterParams : List (String × String)
  allowEmptySearch : Bool
  deriving DecidableEq

/-- The field initializers of the `SearchStore` class. -/
def initialState : StoreState where
  searchQuery := ""
  rawSearchString := ""
  parsedSearch := none
  movieResults := []
  tvResults := []
  personResults := []
  companyResults := []
  loading := false
  error := none
  moviePage := 1
  tvPage := 1
  personPage := 1
  companyPage := 1
  totalResultsMovie := 0
  totalResultsTV := 0
  totalResultsPerson := 0
  totalResultsCompany := 0
  movieHasMore := true
  tvHasMore := true
  personHasMore := true
  companyHasMore := true
  mediaType := .both
  warnings := []
  filterParams := []
  allowEmptySearch := false

/-- Embeds the source's recurring four-way `if`/`else` chains selecting a
category's result list (`movieResults` / `tvResults` / ...). -/
def resultsOf (s : StoreState) : MType → List Item
  | .movie => s.movieResults
  | .tv => s.tvResults
  | .person => s.personResults
  | .company => s.companyResults

/-- Four-way assignment to a category's result list. -/
def withResults (s : StoreState) (t : MType) (l : List Item) : StoreState :=
  match t with
  | .movie => { s with movieResults := l }
  | .tv => { s with tvResults := l }
  | .person => { s with personResults := l }
  | .company => { s with companyResults := l }

/-- Four-way read of a category's page counter. -/
def pageOf (s : StoreState) : MType → Int
  | .movie => s.moviePage
  | .tv => s.tvPage
  | .person => s.personPage
  | .company => s.companyPage

/-- Four-way assignment to a category's page counter. -/
def withPage (s : StoreState) (t : MType) (p : Int) : StoreState :=
  match t with
  | .movie => { s with moviePage := p }
  | .tv => { s with tvPage := p }
  | .person => { s with personPage := p }
  | .company => { s with companyPage := p }

/-- Four-way read of a category's `hasMore` flag. -/
def hasMoreOf (s : StoreState) : MType → Bool
  | .movie => s.movieHasMore
  | .tv => s.tvHasMore
  | .person => s.personHasMore
  | .company => s.companyHasMore

/-- Four-way assignment to a category's `hasMore` flag. -/
def withHasMore (s : StoreState) (t : MType) (b : Bool) : StoreState :=
  match t with
  | .movie => { s with movieHasMore := b }
  | .tv => { s with tvHasMore := b }
  | .person => { s with personHasMore := b }
  | .company => { s with companyHasMore := b }

/-- Four-way read of a category's total result count. -/
def totalOf (s : StoreState) : MType → Int
  | .movie => s.totalResultsMovie
  | .tv => s.totalResultsTV
  | .person => s.totalResultsPerson
  | .company => s.totalResultsCompany

/-- Four-way assignment to a category's total result count. -/
def withTotal (s : StoreState) (t : MType) (n : Int) : StoreState :=
  match t with
  | .movie => { s with totalResultsMovie := n }
  | .tv => { s with totalResultsTV := n }
  | .person => { s with totalResultsPerson := n }
  | .company => { s with totalResultsCompany := n }

/-!  ## De-duplication (`deduplicateItems`)  -/

/-- The `for (const item of newItems)` loop of `deduplicateItems`: `seen` is
the mutable `seenIds` set (as a list), items whose `id` is
`undefined`/`null` are skipped, an unseen `id` is appended and recorded. -/
def dedupGo (seen : List (Option Int)) : List Item → List Item
  | [] => []
  | item :: rest =>
    match item.id with
    | none => dedupGo seen rest
    | some v =>
      if some v ∈ seen then dedupGo seen rest
      else item :: dedupGo (some v :: seen) rest

/-- `deduplicateItems(newItems, existingItems)`: the `seenIds` set is
initialized from the ids of `existingItems`. -/
def deduplicateItems (newItems : List Item) (existingItems : List Item) : List Item :=
  dedupGo (existingItems.map Item.id) newItems

/-- The append pattern used by `fetchMedia` (page > 1) and `loadMoreMedia`:
`results = [...results, ...deduplicateItems(newItems, results)]`. -/
def mergePage (existingItems : List Item) (newItems : List Item) : List Item :=
  existingItems ++ deduplicateItems newItems existingItems

/-- The identifiers actually present in a result sequence (dropping
`undefined`/`null`). -/
def someIds (l : List Item) : List Int :=
  l.filterMap Item.id

/-!  ## Merged view projection (`ensureMergedSortedResults` / `get results`) -/

/-- The popularity key used by the merge comparator:
`(x.popularity ?? 0)`. -/
def popVal (i : Item) : Int :=
  i.popularity.getD 0

/-- The ordering induced by the comparator
`(a, b) => (b.popularity ?? 0) - (a.popularity ?? 0)`: `a` precedes `b`
when the comparator is non-positive, i.e. descending popularity. -/
def popDescRel (a b : Item) : Prop :=
  popVal b ≤ popVal a

instance : DecidableRel popDescRel := fun a b =>
  inferInstanceAs (Decidable (popVal b ≤ popVal a))

instance : IsTotal Item popDescRel :=
  ⟨fun a b => le_total (popVal b) (popVal a)⟩

instance : IsTrans Item popDescRel :=
  ⟨fun _ _ _ h₁ h₂ => le_trans h₂ h₁⟩

/-- `merged.sort(comparator)`: `Array.prototype.sort` is specified to be
stable, so it is embedded as a stable sort (insertion sort) under
`popDescRel`. -/
def sortPopDesc (l : List Item) : List Item :=
  List.insertionSort popDescRel l

/-- The concatenation
`[...movieResults, ...tvResults, ...personResults, ...companyResults]`. -/
def concatResults (s : StoreState) : List Item :=
  s.movieResults ++ s.tvResults ++ s.personResults ++ s.companyResults

/-- The value cached by `ensureMergedSortedResults` (the reference-equality
cache is a recomputation optimization with no effect on the value). -/
def mergedSortedResults (s : StoreState) : List Item :=
  sortPopDesc (concatResults s)

/-- The `get results` view projection. -/
def resultsView (s : StoreState) : List Item :=
  match s.mediaType with
  | .both => mergedSortedResults s
  | .movie => s.movieResults
  | .tv => s.tvResults
  | .person => s.personResults
  | .company => s.companyResults

/-!  ## Gating and request construction -/

/-- JavaScript `String.prototype.trim()`: strip leading and trailing
whitespace (structural definition, so that it evaluates by `decide`). -/
def trimString (s : String) : String :=
  ⟨((s.data.dropWhile Char.isWhitespace).reverse.dropWhile Char.isWhitespace).reverse⟩

/-- `canFetchMediaType`: person/company require a non-empty trimmed
free-text query (`Boolean(this.parsedSearch?.query?.trim())`). -/
def canFetchMediaType (s : StoreState) (t : MType) : Bool :=
  match t with
  | .person | .company =>
    match s.parsedSearch with
    | some p => trimString p.query != ""
    | none => false
  | _ => true

/-- `Boolean(this.parsedSearch?.query?.trim())` as used in
`buildSearchUrl`. -/
def hasTextQuery (s : StoreState) : Bool :=
  match s.parsedSearch with
  | some p => trimString p.query != ""
  | none => false

/-- `this.parsedSearch?.searchMode || "discover"`: `undefined` (no parsed
search) and the empty string both fall back to `"discover"`. -/
def parserMode (s : StoreState) : String :=
  match s.parsedSearch with
  | some p => if p.searchMode = "" then "discover" else p.searchMode
  | none => "discover"

/-- The mode resolution of `buildSearchUrl`: any UI filter forces
`"discover"`, then person/company with a non-empty text query are forced
back to `"search"`. -/
def resolveSearchMode (s : StoreState) (t : MType) : String :=
  let m := if s.filterParams ≠ [] then "discover" else parserMode s
  if (t = .person ∨ t = .company) ∧ hasTextQuery s = true then "search" else m

/-- JavaScript object spread `{...a, ...b}` on flat objects as association
lists: keys of `a` in order (values overridden by `b` where present),
followed by the keys of `b` not present in `a`. -/
def spreadMerge (a b : List (String × String)) : List (String × String) :=
  a.map (fun kv => (kv.1, (List.lookup kv.1 b).getD kv.2)) ++
    b.filter (fun kv => (List.lookup kv.1 a).isNone)

/-- An outgoing category fetch request, structured form of the URL built by
`buildSearchUrl` (`/api/tmdb/search/{type}?{params}`). -/
structure Request where
  rtype : MType
  page : Int
  mode : String
  params : List (String × String)
  deriving DecidableEq

/-- `buildSearchUrl`: merges `parsedSearch.tmdbParams` with `filterParams`
(filters take precedence), adds `page` and `searchMode`, deletes the
`query` key in discover mode, and drops empty values
(`undefined`/`null` values are modelled as absent keys). -/
def buildSearchUrl (s : StoreState) (t : MType) (page : Int) : Request :=
  let mode := resolveSearchMode s t
  let base :=
    spreadMerge
      (match s.parsedSearch with
       | some p => p.tmdbParams
       | none => [])
      s.filterParams
  let withPageMode := spreadMerge base [("page", toString page), ("searchMode", mode)]
  let afterDelete :=
    if mode = "discover" then withPageMode.filter (fun kv => kv.1 != "query")
    else withPageMode
  { rtype := t
    page := page
    mode := mode
    params := afterDelete.filter (fun kv => kv.2 != "") }

/-!  ## Response phases (the code after each `await fetchSearchResults`) -/

/-- The response phase of `fetchMedia` (everything after
`await this.fetchSearchResults(...)`): the stale-response guard
`if (signal?.aborted) return;` followed by the page-1 replace or the
append of de-duplicated items, the conditional total update, and the
`hasMore` update. -/
def fetchMediaResponse (s : StoreState) (t : MType) (page : Int) (r : SearchResult)
    (aborted : Bool) : StoreState :=
  if aborted then s
  else
    let items := r.results
    let s1 :=
      if page = 1 then
        let uniqueItems := deduplicateItems items []
        let sA := withResults s t uniqueItems
        if s.mediaType = MSel.ofType t ∨ s.mediaType = .both then
          withTotal sA t r.total_results
        else sA
      else
        let uniqueNewItems := deduplicateItems items (resultsOf s t)
        withResults s t (resultsOf s t ++ uniqueNewItems)
    withHasMore s1 t (decide (r.page < r.total_pages))

/-- The settling of `loadMoreMedia`'s fetch: a rejection runs the `catch`
block (page-counter rollback, rethrow); a fulfilled response runs the
stale-response guard, the append of de-duplicated items (only when the
page is non-empty), and the `hasMore` update. -/
def loadMoreMediaResponse (s : StoreState) (t : MType)
    (outcome : Except String SearchResult) (aborted : Bool) : StoreState :=
  match outcome with
  | .error _ => withPage s t (pageOf s t - 1)
  | .ok r =>
    if aborted then s
    else
      let newItems := r.results
      let s1 :=
        if newItems ≠ [] then
          let uniqueNewItems := deduplicateItems newItems (resultsOf s t)
          withResults s t (resultsOf s t ++ uniqueNewItems)
        else s
      withHasMore s1 t (decide (r.page < r.total_pages))

/-- The whole of `loadMoreMedia` for one category, with the eventual fetch
outcome and the abort state at response time passed explicitly: the
person/company gate (which here only clears `hasMore`), the
no-search/no-filter gate, the `hasMore` gate, the optimistic page
increment, then the response phase on the incremented page. -/
def loadMoreMedia (s : StoreState) (t : MType)
    (outcome : Except String SearchResult) (aborted : Bool) : StoreState :=
  if canFetchMediaType s t = false then
    match t with
    | .person => { s with personHasMore := false }
    | .company => { s with companyHasMore := false }
    | _ => s
  else if s.parsedSearch = none ∧ s.filterParams = [] ∧ s.allowEmptySearch = false then s
  else if hasMoreOf s t = false then s
  else
    let s1 := withPage s t (pageOf s t + 1)
    loadMoreMediaResponse s1 t outcome aborted

/-- A settled in-flight fetch: a page fetch issued by `search` /
`fetchMissingMedia` resolving with a `SearchResult`, or a `loadMoreMedia`
fetch settling with its outcome. -/
inductive RespEvent where
  | searchResp (t : MType) (page : Int) (r : SearchResult)
  | loadMoreResp (t : MType) (outcome : Except String SearchResult)

/-- The category a response event belongs to. -/
def RespEvent.rtype : RespEvent → MType
  | .searchResp t _ _ => t
  | .loadMoreResp t _ => t

/-- Applies one settled fetch to the state; `aborted` is the value of the
fetch's `signal.aborted` at settle time. -/
def applyRespEvent (aborted : Bool) (s : StoreState) (e : RespEvent) : StoreState :=
  match e with
  | .searchResp t page r => fetchMediaResponse s t page r aborted
  | .loadMoreResp t outcome => loadMoreMediaResponse s t outcome aborted

/-!  ## Issue phases (`search`, `syncQuery`, `setSearch`, `setFilters`,
`clear`) -/

/-- The synchronous prefix of `runFetchWithTrace` / `fetchMedia` for one
category during `search()`: the person/company gate (clearing `hasMore`,
total, and results), the no-search/no-filter gate, then the page-1 request
issue. -/
def issueFetch (s : StoreState) (t : MType) : StoreState × List Request :=
  if canFetchMediaType s t = false then
    (match t with
     | .person =>
       { s with personHasMore := false, totalResultsPerson := 0, personResults := [] }
     | .company =>
       { s with companyHasMore := false, totalResultsCompany := 0, companyResults := [] }
     | _ => s, [])
  else if s.parsedSearch = none ∧ s.filterParams = [] ∧ s.allowEmptySearch = false then
    (s, [])
  else (s, [buildSearchUrl s t 1])

/-- The synchronous phase of `search()`: cancel the previous batch, set
`loading`, clear `error`, reset `moviePage`/`tvPage`, then per
`mediaType` reset the in-view categories' results and totals and issue
their page-1 fetches (the four issue prefixes of the `Promise.all` run in
array order). -/
def searchStart (s : StoreState) : StoreState × List Request :=
  let s0 := { s with loading := true, error := none, moviePage := 1, tvPage := 1 }
  match s0.mediaType with
  | .both =>
    let sA :=
      { s0 with
        movieResults := [], tvResults := [], personResults := [], companyResults := []
        totalResultsMovie := 0, totalResultsTV := 0
        totalResultsPerson := 0, totalResultsCompany := 0 }
    let r1 := issueFetch sA .movie
    let r2 := issueFetch r1.1 .tv
    let r3 := issueFetch r2.1 .person
    let r4 := issueFetch r3.1 .company
    (r4.1, r1.2 ++ r2.2 ++ r3.2 ++ r4.2)
  | .movie =>
    issueFetch { s0 with movieResults := [], totalResultsMovie := 0 } .movie
  | .tv =>
    issueFetch { s0 with tvResults := [], totalResultsTV := 0 } .tv
  | .person =>
    issueFetch { s0 with personResults := [], totalResultsPerson := 0 } .person
  | .company =>
    issueFetch { s0 with companyResults := [], totalResultsCompany := 0 } .company

/-- `clear()`: reset every field except `mediaType` and
`allowEmptySearch`. -/
def clearStore (s : StoreState) : StoreState :=
  { s with
    searchQuery := "", rawSearchString := "", parsedSearch := none
    movieResults := [], tvResults := [], personResults := [], companyResults := []
    moviePage := 1, tvPage := 1, personPage := 1, companyPage := 1
    movieHasMore := true, tvHasMore := true, personHasMore := true, companyHasMore := true
    error := none, warnings := [], loading := false, filterParams := []
    totalResultsMovie := 0, totalResultsTV := 0
    totalResultsPerson := 0, totalResultsCompany := 0 }

/-- `setSearch(rawString, parsed)`: install the new query and reset all
four categories' pagination, `hasMore`, results and totals. -/
def setSearch (s : StoreState) (rawString : String) (parsed : ParsedSearchQuery) :
    StoreState :=
  { s with
    rawSearchString := rawString
    searchQuery := parsed.query
    parsedSearch := some parsed
    warnings := parsed.warnings
    moviePage := 1, tvPage := 1, personPage := 1, companyPage := 1
    movieHasMore := true, tvHasMore := true, personHasMore := true, companyHasMore := true
    movieResults := [], tvResults := [], personResults := [], companyResults := []
    totalResultsMovie := 0, totalResultsTV := 0
    totalResultsPerson := 0, totalResultsCompany := 0 }

/-- The keys of `parsed.tmdbParams` other than `"query"` (used by
`syncQuery`'s `hasFilters`). -/
def nonQueryKeys (params : List (String × String)) : List String :=
  (params.map Prod.fst).filter (fun k => k != "query")

/-- `syncQuery(parsed)` together with the requests issued by the
`search()` it may trigger.  The `filtersChanged` comparison is the
source's `JSON.stringify` comparison of the two flat `tmdbParams`
objects, which for these association lists is list equality (and is
always a change when no query is active, since
`JSON.stringify(undefined)` is not a string). -/
def syncQuery (s : StoreState) (parsed : Option ParsedSearchQuery) :
    StoreState × List Request :=
  match parsed with
  | none => (clearStore s, [])
  | some p =>
    let newQuery := p.query
    let hasFilters := nonQueryKeys p.tmdbParams ≠ []
    if newQuery = "" ∧ ¬hasFilters then (clearStore s, [])
    else
      let queryChanged : Bool := s.searchQuery != newQuery
      let filtersChanged : Bool :=
        match s.parsedSearch with
        | some q => decide (p.tmdbParams ≠ q.tmdbParams)
        | none => true
      if queryChanged = false ∧ filtersChanged = false then (s, [])
      else searchStart (setSearch s newQuery p)

/-- The synchronous mutations of `setFilters(params, true)` before it calls
`search()`: install the filters and reset only the movie and tv result
lists, pages and `hasMore` flags. -/
def setFiltersPrepare (s : StoreState) (params : List (String × String)) : StoreState :=
  { s with
    filterParams := params
    movieResults := [], tvResults := []
    moviePage := 1, tvPage := 1
    movieHasMore := true, tvHasMore := true }

/-- `setFilters(params, true)` together with the requests issued by the
triggered `search()`. -/
def setFilters (s : StoreState) (params : List (String × String)) :
    StoreState × List Request :=
  if s.parsedSearch ≠ none ∨ params ≠ [] then
    searchStart (setFiltersPrepare s params)
  else ({ s with filterParams := params }, [])

/-!  ## Concurrent search batch (`search()`'s `Promise.all` fan-in) -/

/-- One settled fetch of a `search()` batch folded into the state: a
fulfilled fetch runs `fetchMedia`'s page-1 response phase (the batch is
not aborted by a sibling's failure), a rejected fetch is caught by
`search()`'s `catch` via the `Promise.all` rejection, which records only
the first error. -/
def batchStep (s : StoreState) (a : MType × Except String SearchResult) : StoreState :=
  match a.2 with
  | .ok r => fetchMediaResponse s a.1 1 r false
  | .error e => if s.error = none then { s with error := some e } else s

/-- A whole `search()` batch fan-in: `error` is cleared when the batch
starts, then the settled fetches are applied in settlement order. -/
def runBatch (s : StoreState) (arrivals : List (MType × Except String SearchResult)) :
    StoreState :=
  arrivals.foldl batchStep { s with error := none }

/-- The first rejection, in settlement order, of a batch — the error
`Promise.all` rejects with. -/
def firstErrorMsg : List (MType × Except String SearchResult) → Option String
  | [] => none
  | (_, .error e) :: _ => some e
  | (_, .ok _) :: rest => firstErrorMsg rest

/-- The per-category observable state: result list, `hasMore`, total, and
the (batch-constant) `mediaType` selection. -/
def projT (s : StoreState) (t : MType) : List Item × Bool × Int × MSel :=
  (resultsOf s t, hasMoreOf s t, totalOf s t, s.mediaType)

/-- One settled fetch of a `loadMore()` batch folded into the state: a
fulfilled fetch runs `loadMoreMedia`'s response phase; a rejected fetch
runs `loadMoreMedia`'s own `catch` (the page rollback) and then
`loadMore()`'s `catch` via the `Promise.all` rejection, which records
only the first error. -/
def batchStepLM (s : StoreState) (a : MType × Except String SearchResult) : StoreState :=
  match a.2 with
  | .ok r => loadMoreMediaResponse s a.1 (.ok r) false
  | .error e =>
    let s1 := loadMoreMediaResponse s a.1 (.error e) false
    if s1.error = none then { s1 with error := some e } else s1

/-- A whole `loadMore()` batch fan-in: `error` is cleared when the batch
starts, then the settled fetches are applied in settlement order. -/
def runLoadMoreBatch (s : StoreState)
    (arrivals : List (MType × Except String SearchResult)) : StoreState :=
  arrivals.foldl batchStepLM { s with error := none }

/-!  ## Concrete stores used to instantiate the theorems -/

/-- A small store in the `both` view with a popularity tie across
categories, used to instantiate C6. -/
def c6Store : StoreState :=
  { initialState with
    mediaType := .both
    movieResults := [Item.mk (some 1) (some 5), Item.mk (some 2) none]
    tvResults := [Item.mk (some 3) (some 5), Item.mk (some 4) (some 9)]
    personResults := [Item.mk (some 5) (some 0)] }

/-- A store with an active free-text query and a UI filter, used to
instantiate C7. -/
def c7Store : StoreState :=
  { initialState with
    parsedSearch := some (ParsedSearchQuery.mk "batman" [("query", "batman")] "search" [])
    filterParams := [("with_genres", "28")] }

/-- A `both`-view store holding an active empty-term, filter-only query,
used to instantiate C3. -/
def c3Store : StoreState :=
  setSearch { initialState with mediaType := MSel.both, filterParams := [("with_genres", "28")] }
    "" (ParsedSearchQuery.mk "" [("with_genres", "28")] "discover" [])

/-- A store with an active query `batman` and parser filters, used to
instantiate C5. -/
def c5Store : StoreState :=
  { initialState with
    mediaType := MSel.movie
    searchQuery := "batman"
    parsedSearch := some (ParsedSearchQuery.mk "batman"
      [("query", "batman"), ("a", "1"), ("b", "2")] "search" []) }

/-- The same parsed query as `c5Store`'s active one — same term, same
filter mapping as a finite map — but with the filter keys in a different
insertion order. -/
def c5Reordered : ParsedSearchQuery :=
  ParsedSearchQuery.mk "batman" [("query", "batman"), ("b", "2"), ("a", "1")] "search" []

/-- A `both`-view store with three loaded person pages, used to instantiate
C9. -/
def c9Store : StoreState :=
  { initialState with
    mediaType := MSel.both
    searchQuery := "batman"
    parsedSearch := some (ParsedSearchQuery.mk "batman" [("query", "batman")] "search" [])
    personPage := 3
    personResults := [Item.mk (some 9) (some 1)] }

/-!  ## Projection / update lemmas -/

@[simp]
lemma resultsOf_withPage (s : StoreState) (t u : MType) (x : Int) :
    resultsOf (withPage s t x) u = resultsOf s u := by
  cases t <;> cases u <;> rfl

@[simp]
lemma hasMoreOf_withPage (s : StoreState) (t u : MType) (x : Int) :
    hasMoreOf (withPage s t x) u = hasMoreOf s u := by
  cases t <;> cases u <;> rfl

@[simp]
lemma totalOf_withPage (s : StoreState) (t u : MType) (x : Int) :
    totalOf (withPage s t x) u = totalOf s u := by
  cases t <;> cases u <;> rfl

@[simp]
lemma mediaType_withPage (s : StoreState) (t : MType) (x : Int) :
    (withPage s t x).mediaType = s.mediaType := by
  cases t <;> rfl

@[simp]
lemma error_withPage (s : StoreState) (t : MType) (x : Int) :
    (withPage s t x).error = s.error := by
  cases t <;> rfl

@[simp]
lemma pageOf_withPage_same (s : StoreState) (t : MType) (x : Int) :
    pageOf (withPage s t x) t = x := by
  cases t <;> rfl

lemma pageOf_withPage_ne (s : StoreState) {t u : MType} (x : Int) (h : u ≠ t) :
    pageOf (withPage s t x) u = pageOf s u := by
  cases t <;> cases u <;> (try rfl) <;> exact absurd rfl h

@[simp]
lemma resultsOf_withResults_same (s : StoreState) (t : MType) (l : List Item) :
    resultsOf (withResults s t l) t = l := by
  cases t <;> rfl

lemma resultsOf_withResults_ne (s : StoreState) {t u : MType} (l : List Item) (h : u ≠ t) :
    resultsOf (withResults s t l) u = resultsOf s u := by
  cases t <;> cases u <;> (try rfl) <;> exact absurd rfl h

@[simp]
lemma pageOf_withResults (s : StoreState) (t u : MType) (l : List Item) :
    pageOf (withResults s t l) u = pageOf s u := by
  cases t <;> cases u <;> rfl

@[simp]
lemma hasMoreOf_withResults (s : StoreState) (t u : MType) (l : List Item) :
    hasMoreOf (withResults s t l) u = hasMoreOf s u := by
  cases t <;> cases u <;> rfl

@[simp]
lemma totalOf_withResults (s : StoreState) (t u : MType) (l : List Item) :
    totalOf (withResults s t l) u = totalOf s u := by
  cases t <;> cases u <;> rfl

@[simp]
lemma mediaType_withResults (s : StoreState) (t : MType) (l : List Item) :
    (withResults s t l).mediaType = s.mediaType := by
  cases t <;> rfl

@[simp]
lemma error_withResults (s : StoreState) (t : MType) (l : List Item) :
    (withResults s t l).error = s.error := by
  cases t <;> rfl

@[simp]
lemma hasMoreOf_withHasMore_same (s : StoreState) (t : MType) (b : Bool) :
    hasMoreOf (withHasMore s t b) t = b := by
  cases t <;> rfl

lemma hasMoreOf_withHasMore_ne (s : StoreState) {t u : MType} (b : Bool) (h : u ≠ t) :
    hasMoreOf (withHasMore s t b) u = hasMoreOf s u := by
  cases t <;> cases u <;> (try rfl) <;> exact absurd rfl h

@[simp]
lemma resultsOf_withHasMore (s : StoreState) (t u : MType) (b : Bool) :
    resultsOf (withHasMore s t b) u = resultsOf s u := by
  cases t <;> cases u <;> rfl

@[simp]
lemma pageOf_withHasMore (s : StoreState) (t u : MType) (b : Bool) :
    pageOf (withHasMore s t b) u = pageOf s u := by
  cases t <;> cases u <;> rfl

@[simp]
lemma totalOf_withHasMore (s : StoreState) (t u : MType) (b : Bool) :
    totalOf (withHasMore s t b) u = totalOf s u := by
  cases t <;> cases u <;> rfl

@[simp]
lemma mediaType_withHasMore (s : StoreState) (t : MType) (b : Bool) :
    (withHasMore s t b).mediaType = s.mediaType := by
  cases t <;> rfl

@[simp]
lemma error_withHasMore (s : StoreState) (t : MType) (b : Bool) :
    (withHasMore s t b).error = s.error := by
  cases t <;> rfl

@[simp]
lemma totalOf_withTotal_same (s : StoreState) (t : MType) (n : Int) :
    totalOf (withTotal s t n) t = n := by
  cases t <;> rfl

lemma totalOf_withTotal_ne (s : StoreState) {t u : MType} (n : Int) (h : u ≠ t) :
    totalOf (withTotal s t n) u = totalOf s u := by
  cases t <;> cases u <;> (try rfl) <;> exact absurd rfl h

@[simp]
lemma resultsOf_withTotal (s : StoreState) (t u : MType) (n : Int) :
    resultsOf (withTotal s t n) u = resultsOf s u := by
  cases t <;> cases u <;> rfl

@[simp]
lemma pageOf_withTotal (s : StoreState) (t u : MType) (n : Int) :
    pageOf (withTotal s t n) u = pageOf s u := by
  cases t <;> cases u <;> rfl

@[simp]
lemma hasMoreOf_withTotal (s : StoreState) (t u : MType) (n : Int) :
    hasMoreOf (withTotal s t n) u = hasMoreOf s u := by
  cases t <;> cases u <;> rfl

@[simp]
lemma mediaType_withTotal (s : StoreState) (t : MType) (n : Int) :
    (withTotal s t n).mediaType = s.mediaType := by
  cases t <;> rfl

@[simp]
lemma error_withTotal (s : StoreState) (t : MType) (n : Int) :
    (withTotal s t n).error = s.error := by
  cases t <;> rfl

/-!  ## De-duplication lemmas -/

lemma dedupGo_cons (seen : List (Option Int)) (item : Item) (rest : List Item) :
    dedupGo seen (item :: rest) =
      match item.id with
      | none => dedupGo seen rest
      | some v =>
        if some v ∈ seen then dedupGo seen rest
        else item :: dedupGo (some v :: seen) rest := rfl

lemma dedupGo_cons_none {item : Item} (h : item.id = none)
    (seen : List (Option Int)) (rest : List Item) :
    dedupGo seen (item :: rest) = dedupGo seen rest := by
  rw [dedupGo_cons, h]

lemma dedupGo_cons_some {item : Item} {v : Int} (h : item.id = some v)
    (seen : List (Option Int)) (rest : List Item) :
    dedupGo seen (item :: rest) =
      if some v ∈ seen then dedupGo seen rest
      else item :: dedupGo (some v :: seen) rest := by
  rw [dedupGo_cons, h]

lemma dedupGo_sublist (l : List Item) : ∀ seen, List.Sublist (dedupGo seen l) l := by
  induction l with
  | nil => intro seen; simp [dedupGo]
  | cons item rest ih =>
    intro seen
    cases h : item.id with
    | none =>
      rw [dedupGo_cons_none h]
      exact (ih seen).cons _
    | some v =>
      rw [dedupGo_cons_some h]
      by_cases hv : some v ∈ seen
      · simp only [if_pos hv]
        exact (ih seen).cons _
      · simp only [if_neg hv]
        exact (ih _).cons₂ _

lemma mem_dedupGo_id_ne_none {x : Item} {l : List Item} :
    ∀ {seen}, x ∈ dedupGo seen l → x.id ≠ none := by
  induction l with
  | nil => intro seen hx; simp [dedupGo] at hx
  | cons item rest ih =>
    intro seen hx
    cases h : item.id with
    | none =>
      rw [dedupGo_cons_none h] at hx
      exact ih hx
    | some v =>
      rw [dedupGo_cons_some h] at hx
      by_cases hv : some v ∈ seen
      · rw [if_pos hv] at hx; exact ih hx
      · rw [if_neg hv] at hx
        rcases List.mem_cons.mp hx with hx | hx
        · subst hx; simp [h]
        · exact ih hx

lemma mem_someIds {v : Int} {l : List Item} :
    v ∈ someIds l ↔ ∃ x ∈ l, x.id = some v := by
  simp [someIds, List.mem_filterMap]

lemma someIds_cons_some {item : Item} {v : Int} (h : item.id = some v) (l : List Item) :
    someIds (item :: l) = v :: someIds l := by
  simp [someIds, h]

lemma dedupGo_nodup_invariant (l : List Item) : ∀ seen,
    (someIds (dedupGo seen l)).Nodup ∧
      ∀ v ∈ someIds (dedupGo seen l), some v ∉ seen := by
  induction l with
  | nil => intro seen; simp [dedupGo, someIds]
  | cons item rest ih =>
    intro seen
    cases h : item.id with
    | none => rw [dedupGo_cons_none h]; exact ih seen
    | some v =>
      rw [dedupGo_cons_some h]
      by_cases hv : some v ∈ seen
      · rw [if_pos hv]; exact ih seen
      · rw [if_neg hv, someIds_cons_some h]
        obtain ⟨ihnd, ihseen⟩ := ih (some v :: seen)
        refine ⟨List.nodup_cons.mpr ⟨?_, ihnd⟩, ?_⟩
        · intro hmem
          exact (ihseen v hmem) (List.mem_cons_self _ _)
        · intro w hw
          rcases List.mem_cons.mp hw with hw' | hw'
          · subst hw'; exact hv
          · intro hcon
            exact (ihseen w hw') (List.mem_cons_of_mem _ hcon)

lemma dedupGo_filter_char (l : List Item) (v : Int) : ∀ seen,
    (dedupGo seen l).filter (fun i => i.id == some v) =
      if some v ∈ seen then []
      else (l.filter (fun i => i.id == some v)).take 1 := by
  induction l with
  | nil => intro seen; simp [dedupGo]
  | cons item rest ih =>
    intro seen
    cases h : item.id with
    | none =>
      rw [dedupGo_cons_none h, ih seen]
      have hne : (item.id == some v) = false := by simp [h]
      simp [List.filter_cons, hne]
    | some w =>
      rw [dedupGo_cons_some h]
      by_cases hwv : w = v
      · subst hwv
        have heq : (item.id == some w) = true := by simp [h]
        by_cases hv : some w ∈ seen
        · rw [if_pos hv, ih seen]
          simp [hv]
        · rw [if_neg hv]
          simp [List.filter_cons, heq, ih (some w :: seen), hv]
      · have hne : (item.id == some v) = false := by simp [h, hwv]
        have hvw : (some v = some w) ↔ False := by simp [Ne.symm hwv]
        by_cases hws : some w ∈ seen
        · rw [if_pos hws, ih seen]
          simp [List.filter_cons, hne]
        · rw [if_neg hws]
          simp [List.filter_cons, hne, ih (some w :: seen), List.mem_cons, hvw]

lemma dedupGo_eq_nil_of_all_seen (l : List Item) : ∀ seen,
    (∀ v : Int, some v ∈ l.map Item.id → some v ∈ seen) → dedupGo seen l = [] := by
  induction l with
  | nil => intro seen _; rfl
  | cons item rest ih =>
    intro seen hall
    cases h : item.id with
    | none =>
      rw [dedupGo_cons_none h]
      exact ih seen fun v hv => hall v (by simp [hv])
    | some w =>
      have hw : some w ∈ seen := hall w (by simp [h])
      rw [dedupGo_cons_some h, if_pos hw]
      exact ih seen fun v hv => hall v (by simp [hv])

lemma mem_map_id_of_mem_dedupGo {seen : List (Option Int)} {l : List Item} {v : Int}
    (h : some v ∈ l.map Item.id) (hns : some v ∉ seen) :
    some v ∈ (dedupGo seen l).map Item.id := by
  obtain ⟨x, hx, hxid⟩ := List.mem_map.mp h
  have hfilter := dedupGo_filter_char l v seen
  rw [if_neg hns] at hfilter
  have hne : l.filter (fun i => i.id == some v) ≠ [] := by
    intro hnil
    have : x ∈ l.filter (fun i => i.id == some v) :=
      List.mem_filter.mpr ⟨hx, by simp [hxid]⟩
    simp [hnil] at this
  have htake : (l.filter (fun i => i.id == some v)).take 1 ≠ [] := by
    cases hcase : l.filter (fun i => i.id == some v) with
    | nil => exact absurd hcase hne
    | cons a as => simp [hcase]
  rw [← hfilter] at htake
  cases hcase : (dedupGo seen l).filter (fun i => i.id == some v) with
  | nil => exact absurd hcase htake
  | cons a as =>
    have ha : a ∈ (dedupGo seen l).filter (fun i => i.id == some v) := by
      rw [hcase]; exact List.mem_cons_self _ _
    obtain ⟨hmem, hid⟩ := List.mem_filter.mp ha
    exact List.mem_map.mpr ⟨a, hmem, by simpa using hid⟩

/-- C2 (shared helper): the second merge of the same page adds nothing. -/
lemma deduplicateItems_self_merged (existing pg : List Item) :
    deduplicateItems pg (mergePage existing pg) = [] := by
  unfold deduplicateItems mergePage
  apply dedupGo_eq_nil_of_all_seen
  intro v hv
  rw [List.map_append]
  by_cases hs : some v ∈ existing.map Item.id
  · exact List.mem_append_left _ hs
  · refine List.mem_append_right _ ?_
    exact mem_map_id_of_mem_dedupGo hv hs

/-- C2: merging a page into a category's result sequence appends an item
only if its identifier is not already present, first-seen-wins among equal
identifiers, arrival order of accepted items is preserved (the accepted
items form a sublist of the page), previously accepted items are kept
unchanged as a prefix, the resulting identifier list stays duplicate-free,
and re-merging the same page is the identity. -/
theorem c2_dedup_merge (existing pg : List Item)
    (hnd : (someIds existing).Nodup) :
    mergePage (mergePage existing pg) pg = mergePage existing pg ∧
    (someIds (mergePage existing pg)).Nodup ∧
    List.Sublist (deduplicateItems pg existing) pg ∧
    (∀ x ∈ deduplicateItems pg existing, ∀ v : Int, x.id = some v →
      some v ∉ existing.map Item.id) ∧
    (∀ v : Int,
      (deduplicateItems pg existing).filter (fun i => i.id == some v) =
        if some v ∈ existing.map Item.id then []
        else (pg.filter (fun i => i.id == some v)).take 1) ∧
    mergePage existing pg = existing ++ deduplicateItems pg existing := by
  refine ⟨?_, ?_, ?_, ?_, ?_, rfl⟩
  · have h := deduplicateItems_self_merged existing pg
    unfold mergePage at h ⊢
    rw [h, List.append_nil]
  · unfold mergePage deduplicateItems
    rw [someIds, List.filterMap_append, ← someIds, ← someIds]
    obtain ⟨hnd2, hseen⟩ := dedupGo_nodup_invariant pg (existing.map Item.id)
    refine List.Nodup.append hnd hnd2 ?_
    intro v hv1 hv2
    obtain ⟨x, hx, hxid⟩ := mem_someIds.mp hv1
    exact (hseen v hv2) (List.mem_map.mpr ⟨x, hx, hxid⟩)
  · exact dedupGo_sublist pg _
  · intro x hx v hxid
    have := mem_dedupGo_id_ne_none (l := pg) hx
    obtain ⟨_, hseen⟩ := dedupGo_nodup_invariant pg (existing.map Item.id)
    have hv : v ∈ someIds (dedupGo (existing.map Item.id) pg) :=
      mem_someIds.mpr ⟨x, hx, hxid⟩
    exact hseen v hv
  · intro v
    exact dedupGo_filter_char pg v _

/-- C2 witness: the properties evaluated on a concrete page containing a
duplicate identifier, an identifier already present, and a null id. -/
theorem c2_dedup_merge_witness :
    (someIds [Item.mk (some 1) none]).Nodup ∧
    (mergePage (mergePage [Item.mk (some 1) none]
        [Item.mk (some 1) none, Item.mk (some 2) (some 5),
         Item.mk (some 2) (some 7), Item.mk none none])
        [Item.mk (some 1) none, Item.mk (some 2) (some 5),
         Item.mk (some 2) (some 7), Item.mk none none] =
      mergePage [Item.mk (some 1) none]
        [Item.mk (some 1) none, Item.mk (some 2) (some 5),
         Item.mk (some 2) (some 7), Item.mk none none] ∧
    (someIds (mergePage [Item.mk (some 1) none]
        [Item.mk (some 1) none, Item.mk (some 2) (some 5),
         Item.mk (some 2) (some 7), Item.mk none none])).Nodup ∧
    List.Sublist (deduplicateItems
        [Item.mk (some 1) none, Item.mk (some 2) (some 5),
         Item.mk (some 2) (some 7), Item.mk none none] [Item.mk (some 1) none])
        [Item.mk (some 1) none, Item.mk (some 2) (some 5),
         Item.mk (some 2) (some 7), Item.mk none none] ∧
    (∀ x ∈ deduplicateItems
        [Item.mk (some 1) none, Item.mk (some 2) (some 5),
         Item.mk (some 2) (some 7), Item.mk none none] [Item.mk (some 1) none],
      ∀ v : Int, x.id = some v →
        some v ∉ [Item.mk (some 1) none].map Item.id) ∧
    (∀ v : Int,
      (deduplicateItems
        [Item.mk (some 1) none, Item.mk (some 2) (some 5),
         Item.mk (some 2) (some 7), Item.mk none none]
        [Item.mk (some 1) none]).filter (fun i => i.id == some v) =
        if some v ∈ [Item.mk (some 1) none].map Item.id then []
        else (([Item.mk (some 1) none, Item.mk (some 2) (some 5),
          Item.mk (some 2) (some 7), Item.mk none none]).filter
            (fun i => i.id == some v)).take 1) ∧
    mergePage [Item.mk (some 1) none]
        [Item.mk (some 1) none, Item.mk (some 2) (some 5),
         Item.mk (some 2) (some 7), Item.mk none none] =
      [Item.mk (some 1) none] ++ deduplicateItems
        [Item.mk (some 1) none, Item.mk (some 2) (some 5),
         Item.mk (some 2) (some 7), Item.mk none none] [Item.mk (some 1) none]) :=
  ⟨by decide, c2_dedup_merge _ _ (by decide)⟩

/-- C10: an item whose identifier is `undefined`/`null` is dropped by the
merge and never appears in a category's result sequence, both on the
page-1 replace of `fetchMedia` and on the appends of `fetchMedia`
(page > 1) and `loadMoreMedia`. -/
theorem c10_null_ids_dropped (s : StoreState) (t : MType) (page : Int)
    (r : SearchResult) (h : ∀ x ∈ resultsOf s t, x.id ≠ none) :
    (∀ x ∈ resultsOf (fetchMediaResponse s t page r false) t, x.id ≠ none) ∧
    (∀ x ∈ resultsOf (loadMoreMediaResponse s t (.ok r) false) t, x.id ≠ none) := by
  constructor
  · intro x hx
    unfold fetchMediaResponse at hx
    simp only [if_neg (by simp : ¬(false = true))] at hx
    rw [resultsOf_withHasMore] at hx
    by_cases hp : page = 1
    · rw [if_pos hp] at hx
      by_cases hm : s.mediaType = MSel.ofType t ∨ s.mediaType = MSel.both
      · rw [if_pos hm, resultsOf_withTotal, resultsOf_withResults_same] at hx
        exact mem_dedupGo_id_ne_none hx
      · rw [if_neg hm, resultsOf_withResults_same] at hx
        exact mem_dedupGo_id_ne_none hx
    · rw [if_neg hp, resultsOf_withResults_same] at hx
      rcases List.mem_append.mp hx with hx | hx
      · exact h x hx
      · exact mem_dedupGo_id_ne_none hx
  · intro x hx
    unfold loadMoreMediaResponse at hx
    simp only [if_neg (by simp : ¬(false = true))] at hx
    rw [resultsOf_withHasMore] at hx
    by_cases hne : r.results ≠ []
    · rw [if_pos hne, resultsOf_withResults_same] at hx
      rcases List.mem_append.mp hx with hx | hx
      · exact h x hx
      · exact mem_dedupGo_id_ne_none hx
    · rw [if_neg hne] at hx
      exact h x hx

/-- C10 witness: a page containing a null-id item merged into a one-item
result list. -/
theorem c10_null_ids_dropped_witness :
    (∀ x ∈ resultsOf
        { initialState with movieResults := [Item.mk (some 1) none] } MType.movie,
      x.id ≠ none) ∧
    ((∀ x ∈ resultsOf (fetchMediaResponse
        { initialState with movieResults := [Item.mk (some 1) none] } MType.movie 2
        (SearchResult.mk [Item.mk none none, Item.mk (some 2) none] 2 3 10) false)
        MType.movie, x.id ≠ none) ∧
    (∀ x ∈ resultsOf (loadMoreMediaResponse
        { initialState with movieResults := [Item.mk (some 1) none] } MType.movie
        (.ok (SearchResult.mk [Item.mk none none, Item.mk (some 2) none] 2 3 10)) false)
        MType.movie, x.id ≠ none)) :=
  ⟨by decide, c10_null_ids_dropped _ _ _ _ (by decide)⟩

/-!  ## C1: stale responses are never applied -/

lemma applyRespEvent_stale_preserves (s : StoreState) (e : RespEvent) (t : MType) :
    resultsOf (applyRespEvent true s e) t = resultsOf s t ∧
    hasMoreOf (applyRespEvent true s e) t = hasMoreOf s t ∧
    totalOf (applyRespEvent true s e) t = totalOf s t := by
  cases e with
  | searchResp u page r =>
    simp [applyRespEvent, fetchMediaResponse]
  | loadMoreResp u outcome =>
    cases outcome with
    | ok r => simp [applyRespEvent, loadMoreMediaResponse]
    | error msg => simp [applyRespEvent, loadMoreMediaResponse]

/-- C1: once a batch's abort signal is set, any sequence of that batch's
fetches settling — page fetches of `search`/`fetchMissingMedia` in any
order, `loadMoreMedia` fetches fulfilled or rejected — leaves every
category's result list, `hasMore` flag and total count unchanged: the
stale-response guard runs immediately before each mutation. -/
theorem c1_stale_responses_not_applied (s : StoreState) (es : List RespEvent) (t : MType) :
    resultsOf (es.foldl (applyRespEvent true) s) t = resultsOf s t ∧
    hasMoreOf (es.foldl (applyRespEvent true) s) t = hasMoreOf s t ∧
    totalOf (es.foldl (applyRespEvent true) s) t = totalOf s t := by
  induction es generalizing s with
  | nil => exact ⟨rfl, rfl, rfl⟩
  | cons e rest ih =>
    simp only [List.foldl_cons]
    obtain ⟨h1, h2, h3⟩ := applyRespEvent_stale_preserves s e t
    obtain ⟨g1, g2, g3⟩ := ih (applyRespEvent true s e)
    exact ⟨g1.trans h1, g2.trans h2, g3.trans h3⟩

/-!  ## C4: loadMore failure rolls the page counter back -/

/-- C4: when the `loadMoreMedia` fetch for a category fails, the category's
page counter ends at its value before the call (the optimistic increment
is compensated), and the category's previously loaded results are
untouched. -/
theorem c4_loadmore_failure_rollback (s : StoreState) (t : MType) (e : String)
    (aborted : Bool) :
    pageOf (loadMoreMedia s t (.error e) aborted) t = pageOf s t ∧
    resultsOf (loadMoreMedia s t (.error e) aborted) t = resultsOf s t := by
  unfold loadMoreMedia
  split
  · cases t <;> simp [pageOf, resultsOf]
  · split
    · exact ⟨rfl, rfl⟩
    · split
      · exact ⟨rfl, rfl⟩
      · simp only [loadMoreMediaResponse]
        constructor
        · rw [pageOf_withPage_same, pageOf_withPage_same]
          omega
        · simp

/-!  ## C8: per-category isolation and first-error retention -/

@[simp]
lemma error_fetchMediaResponse (s : StoreState) (t : MType) (page : Int)
    (r : SearchResult) (aborted : Bool) :
    (fetchMediaResponse s t page r aborted).error = s.error := by
  unfold fetchMediaResponse
  split_ifs <;> simp

lemma projT_batchStep_error (s : StoreState) (u : MType) (e : String) (t : MType) :
    projT (batchStep s (u, .error e)) t = projT s t := by
  unfold batchStep
  dsimp only
  split <;> cases t <;> rfl

lemma projT_fetchMediaResponse_page1 (s : StoreState) (t : MType) (r : SearchResult) :
    projT (fetchMediaResponse s t 1 r false) t =
      (deduplicateItems r.results [],
       decide (r.page < r.total_pages),
       (if s.mediaType = MSel.ofType t ∨ s.mediaType = MSel.both then r.total_results
        else totalOf s t),
       s.mediaType) := by
  unfold fetchMediaResponse projT
  split_ifs with h1 h2 <;> simp_all

lemma projT_fetchMediaResponse_ne (s : StoreState) {t u : MType} (page : Int)
    (r : SearchResult) (aborted : Bool) (h : t ≠ u) :
    projT (fetchMediaResponse s u page r aborted) t = projT s t := by
  unfold fetchMediaResponse projT
  split_ifs with h1 h2 h3 <;>
    simp [hasMoreOf_withHasMore_ne _ _ h, resultsOf_withResults_ne _ _ h,
      totalOf_withTotal_ne _ _ h]

lemma runBatch_proj_filter (t : MType)
    (arr : List (MType × Except String SearchResult)) :
    ∀ s₁ s₂ : StoreState, projT s₁ t = projT s₂ t →
      projT (arr.foldl batchStep s₁) t =
        projT ((arr.filter (fun a => decide (a.1 = t))).foldl batchStep s₂) t := by
  induction arr with
  | nil => intro s₁ s₂ h; simpa using h
  | cons a rest ih =>
    intro s₁ s₂ h
    obtain ⟨u, out⟩ := a
    by_cases hat : u = t
    · subst hat
      rw [List.filter_cons_of_pos (by simp)]
      simp only [List.foldl_cons]
      cases out with
      | ok r =>
        refine ih _ _ ?_
        rw [show batchStep s₁ (u, Except.ok r) = fetchMediaResponse s₁ u 1 r false from rfl,
          show batchStep s₂ (u, Except.ok r) = fetchMediaResponse s₂ u 1 r false from rfl,
          projT_fetchMediaResponse_page1, projT_fetchMediaResponse_page1]
        have h4 : s₁.mediaType = s₂.mediaType := congrArg (fun p => p.2.2.2) h
        have h3 : totalOf s₁ u = totalOf s₂ u := congrArg (fun p => p.2.2.1) h
        rw [h4, h3]
      | error e =>
        refine ih _ _ ?_
        rw [projT_batchStep_error, projT_batchStep_error]
        exact h
    · rw [List.filter_cons_of_neg (by simp [hat])]
      simp only [List.foldl_cons]
      cases out with
      | ok r =>
        refine ih _ _ ?_
        rw [show batchStep s₁ (u, Except.ok r) = fetchMediaResponse s₁ u 1 r false from rfl]
        rw [projT_fetchMediaResponse_ne _ _ _ _ (Ne.symm hat)]
        exact h
      | error e =>
        refine ih _ _ ?_
        rw [projT_batchStep_error]
        exact h

lemma foldl_batchStep_error_some (arr : List (MType × Except String SearchResult)) :
    ∀ (s : StoreState) (e : String), s.error = some e →
      (arr.foldl batchStep s).error = some e := by
  induction arr with
  | nil => intro s e h; simpa using h
  | cons a rest ih =>
    intro s e h
    obtain ⟨u, out⟩ := a
    simp only [List.foldl_cons]
    cases out with
    | ok r =>
      exact ih _ _ (by rw [show batchStep s (u, Except.ok r) =
        fetchMediaResponse s u 1 r false from rfl, error_fetchMediaResponse]; exact h)
    | error e2 =>
      refine ih _ _ ?_
      unfold batchStep
      dsimp only
      rw [if_neg (by rw [h]; simp)]
      exact h

lemma foldl_batchStep_error_none (arr : List (MType × Except String SearchResult)) :
    ∀ s : StoreState, s.error = none →
      (arr.foldl batchStep s).error = firstErrorMsg arr := by
  induction arr with
  | nil => intro s h; simpa [firstErrorMsg] using h
  | cons a rest ih =>
    intro s h
    obtain ⟨u, out⟩ := a
    simp only [List.foldl_cons]
    cases out with
    | ok r =>
      rw [show firstErrorMsg ((u, Except.ok r) :: rest) = firstErrorMsg rest from rfl]
      exact ih _ (by rw [show batchStep s (u, Except.ok r) =
        fetchMediaResponse s u 1 r false from rfl, error_fetchMediaResponse]; exact h)
    | error e =>
      rw [show firstErrorMsg ((u, Except.error e) :: rest) = some e from rfl]
      refine foldl_batchStep_error_some rest _ e ?_
      unfold batchStep
      dsimp only
      rw [if_pos h]

lemma loadMoreMediaResponse_other (s : StoreState) {t u : MType}
    (out : Except String SearchResult) (ab : Bool) (h : t ≠ u) :
    resultsOf (loadMoreMediaResponse s u out ab) t = resultsOf s t ∧
    hasMoreOf (loadMoreMediaResponse s u out ab) t = hasMoreOf s t ∧
    totalOf (loadMoreMediaResponse s u out ab) t = totalOf s t := by
  unfold loadMoreMediaResponse
  cases out with
  | error e => simp
  | ok r =>
    split_ifs <;> by_cases hr : r.results = [] <;>
      simp [hr, resultsOf_withResults_ne _ _ h, hasMoreOf_withHasMore_ne _ _ h]

@[simp]
lemma error_loadMoreMediaResponse (s : StoreState) (t : MType)
    (out : Except String SearchResult) (ab : Bool) :
    (loadMoreMediaResponse s t out ab).error = s.error := by
  unfold loadMoreMediaResponse
  cases out with
  | error e => simp
  | ok r => split_ifs <;> by_cases hr : r.results = [] <;> simp [hr]

@[simp]
lemma mediaType_loadMoreMediaResponse (s : StoreState) (t : MType)
    (out : Except String SearchResult) (ab : Bool) :
    (loadMoreMediaResponse s t out ab).mediaType = s.mediaType := by
  unfold loadMoreMediaResponse
  cases out with
  | error e => simp
  | ok r => split_ifs <;> by_cases hr : r.results = [] <;> simp [hr]

lemma projT_batchStepLM_error (s : StoreState) (u : MType) (e : String) (t : MType) :
    projT (batchStepLM s (u, .error e)) t = projT s t := by
  unfold batchStepLM
  dsimp only
  split <;> cases u <;> cases t <;> rfl

lemma projT_loadMoreMediaResponse_ok (s₁ s₂ : StoreState) (u : MType) (r : SearchResult)
    (h : projT s₁ u = projT s₂ u) :
    projT (loadMoreMediaResponse s₁ u (.ok r) false) u =
      projT (loadMoreMediaResponse s₂ u (.ok r) false) u := by
  have hres : resultsOf s₁ u = resultsOf s₂ u := congrArg (fun p => p.1) h
  have hhm : hasMoreOf s₁ u = hasMoreOf s₂ u := congrArg (fun p => p.2.1) h
  have htot : totalOf s₁ u = totalOf s₂ u := congrArg (fun p => p.2.2.1) h
  have hmt : s₁.mediaType = s₂.mediaType := congrArg (fun p => p.2.2.2) h
  unfold loadMoreMediaResponse
  by_cases hr : r.results = [] <;>
    simp [projT, hr, hres, hhm, htot, hmt]

lemma runLoadMoreBatch_proj_filter (t : MType)
    (arr : List (MType × Except String SearchResult)) :
    ∀ s₁ s₂ : StoreState, projT s₁ t = projT s₂ t →
      projT (arr.foldl batchStepLM s₁) t =
        projT ((arr.filter (fun a => decide (a.1 = t))).foldl batchStepLM s₂) t := by
  induction arr with
  | nil => intro s₁ s₂ h; simpa using h
  | cons a rest ih =>
    intro s₁ s₂ h
    obtain ⟨u, out⟩ := a
    by_cases hat : u = t
    · subst hat
      rw [List.filter_cons_of_pos (by simp)]
      simp only [List.foldl_cons]
      cases out with
      | ok r =>
        refine ih _ _ ?_
        rw [show batchStepLM s₁ (u, Except.ok r) =
          loadMoreMediaResponse s₁ u (Except.ok r) false from rfl,
          show batchStepLM s₂ (u, Except.ok r) =
          loadMoreMediaResponse s₂ u (Except.ok r) false from rfl]
        exact projT_loadMoreMediaResponse_ok s₁ s₂ u r h
      | error e =>
        refine ih _ _ ?_
        rw [projT_batchStepLM_error, projT_batchStepLM_error]
        exact h
    · rw [List.filter_cons_of_neg (by simp [hat])]
      simp only [List.foldl_cons]
      cases out with
      | ok r =>
        refine ih _ _ ?_
        rw [show batchStepLM s₁ (u, Except.ok r) =
          loadMoreMediaResponse s₁ u (Except.ok r) false from rfl]
        obtain ⟨e1, e2, e3⟩ :=
          loadMoreMediaResponse_other s₁ (Except.ok r) false (Ne.symm hat)
        have hpres : projT (loadMoreMediaResponse s₁ u (Except.ok r) false) t =
            projT s₁ t := by
          unfold projT
          rw [e1, e2, e3, mediaType_loadMoreMediaResponse]
        rw [hpres]
        exact h
      | error e =>
        refine ih _ _ ?_
        rw [projT_batchStepLM_error]
        exact h

lemma foldl_batchStepLM_error_some (arr : List (MType × Except String SearchResult)) :
    ∀ (s : StoreState) (e : String), s.error = some e →
      (arr.foldl batchStepLM s).error = some e := by
  induction arr with
  | nil => intro s e h; simpa using h
  | cons a rest ih =>
    intro s e h
    obtain ⟨u, out⟩ := a
    simp only [List.foldl_cons]
    cases out with
    | ok r =>
      exact ih _ _ (by rw [show batchStepLM s (u, Except.ok r) =
        loadMoreMediaResponse s u (Except.ok r) false from rfl,
        error_loadMoreMediaResponse]; exact h)
    | error e2 =>
      refine ih _ _ ?_
      unfold batchStepLM
      dsimp only
      rw [if_neg (by rw [error_loadMoreMediaResponse, h]; simp)]
      rw [error_loadMoreMediaResponse]
      exact h

lemma foldl_batchStepLM_error_none (arr : List (MType × Except String SearchResult)) :
    ∀ s : StoreState, s.error = none →
      (arr.foldl batchStepLM s).error = firstErrorMsg arr := by
  induction arr with
  | nil => intro s h; simpa [firstErrorMsg] using h
  | cons a rest ih =>
    intro s h
    obtain ⟨u, out⟩ := a
    simp only [List.foldl_cons]
    cases out with
    | ok r =>
      rw [show firstErrorMsg ((u, Except.ok r) :: rest) = firstErrorMsg rest from rfl]
      exact ih _ (by rw [show batchStepLM s (u, Except.ok r) =
        loadMoreMediaResponse s u (Except.ok r) false from rfl,
        error_loadMoreMediaResponse]; exact h)
    | error e =>
      rw [show firstErrorMsg ((u, Except.error e) :: rest) = some e from rfl]
      refine foldl_batchStepLM_error_some rest _ e ?_
      unfold batchStepLM
      dsimp only
      rw [if_pos (by rw [error_loadMoreMediaResponse]; exact h)]

/-- C8: in a `search()` or `loadMore()` batch, each category's observable
state (results, `hasMore`, total) is determined by that category's own
settled fetches — a sibling's failure neither aborts nor discards them —
and the aggregate `error` field retains exactly the first rejection in
settlement order. -/
theorem c8_failure_isolation (s : StoreState)
    (arrivals : List (MType × Except String SearchResult)) :
    (∀ t : MType,
      projT (runBatch s arrivals) t =
        projT (runBatch s (arrivals.filter (fun a => decide (a.1 = t)))) t) ∧
    (runBatch s arrivals).error = firstErrorMsg arrivals ∧
    (∀ t : MType,
      projT (runLoadMoreBatch s arrivals) t =
        projT (runLoadMoreBatch s (arrivals.filter (fun a => decide (a.1 = t)))) t) ∧
    (runLoadMoreBatch s arrivals).error = firstErrorMsg arrivals := by
  refine ⟨?_, ?_, ?_, ?_⟩
  · intro t
    unfold runBatch
    exact runBatch_proj_filter t arrivals _ _ rfl
  · unfold runBatch
    exact foldl_batchStep_error_none arrivals _ rfl
  · intro t
    unfold runLoadMoreBatch
    exact runLoadMoreBatch_proj_filter t arrivals _ _ rfl
  · unfold runLoadMoreBatch
    exact foldl_batchStepLM_error_none arrivals _ rfl

/-!  ## C6: merged view is a stable descending-popularity sort -/

lemma filter_orderedInsert_popEq {a : Item} {k : Int} (h : popVal a = k) :
    ∀ m : List Item,
      (List.orderedInsert popDescRel a m).filter (fun i => popVal i == k) =
        a :: m.filter (fun i => popVal i == k) := by
  intro m
  induction m with
  | nil => simp [List.orderedInsert, h]
  | cons b l ih =>
    by_cases hr : popDescRel a b
    · rw [List.orderedInsert_of_le _ _ hr]
      simp [List.filter_cons, h]
    · have hbk : popVal b ≠ k := by
        unfold popDescRel at hr
        omega
      simp only [List.orderedInsert, if_neg hr]
      simp [List.filter_cons, hbk, ih]

lemma filter_orderedInsert_popNe {a : Item} {k : Int} (h : popVal a ≠ k) :
    ∀ m : List Item,
      (List.orderedInsert popDescRel a m).filter (fun i => popVal i == k) =
        m.filter (fun i => popVal i == k) := by
  intro m
  induction m with
  | nil => simp [List.orderedInsert, h]
  | cons b l ih =>
    by_cases hr : popDescRel a b
    · rw [List.orderedInsert_of_le _ _ hr]
      simp [List.filter_cons, h]
    · simp only [List.orderedInsert, if_neg hr]
      simp [List.filter_cons, ih]

lemma filter_sortPopDesc (l : List Item) (k : Int) :
    (sortPopDesc l).filter (fun i => popVal i == k) =
      l.filter (fun i => popVal i == k) := by
  induction l with
  | nil => rfl
  | cons a l ih =>
    unfold sortPopDesc at ih ⊢
    simp only [List.insertionSort]
    by_cases h : popVal a = k
    · rw [filter_orderedInsert_popEq h, ih]
      simp [List.filter_cons, h]
    · rw [filter_orderedInsert_popNe h, ih]
      simp [List.filter_cons, h]

/-- C6: in the `both` view, the projected results are the concatenation of
the four categories' sequences sorted stably by descending popularity:
they are a permutation of the concatenation, sorted under the comparator's
descending `popularity ?? 0` order, and for every popularity value the
items carrying it keep their post-concatenation relative order. -/
theorem c6_merged_view (s : StoreState) (h : s.mediaType = MSel.both) :
    resultsView s = sortPopDesc (concatResults s) ∧
    (resultsView s).Perm (concatResults s) ∧
    List.Sorted popDescRel (resultsView s) ∧
    ∀ k : Int, (resultsView s).filter (fun i => popVal i == k) =
      (concatResults s).filter (fun i => popVal i == k) := by
  have hv : resultsView s = sortPopDesc (concatResults s) := by
    unfold resultsView
    rw [h]
    rfl
  refine ⟨hv, ?_, ?_, ?_⟩
  · rw [hv]
    exact List.perm_insertionSort _ _
  · rw [hv]
    exact List.sorted_insertionSort _ _
  · intro k
    rw [hv]
    exact filter_sortPopDesc _ k

/-- C6 witness: the merged-view properties evaluated on `c6Store`. -/
theorem c6_merged_view_witness :
    c6Store.mediaType = MSel.both ∧
    (resultsView c6Store = sortPopDesc (concatResults c6Store) ∧
    (resultsView c6Store).Perm (concatResults c6Store) ∧
    List.Sorted popDescRel (resultsView c6Store) ∧
    ∀ k : Int, (resultsView c6Store).filter (fun i => popVal i == k) =
      (concatResults c6Store).filter (fun i => popVal i == k)) :=
  ⟨rfl, c6_merged_view c6Store rfl⟩

/-!  ## C7: search-mode resolution and query-parameter removal -/

/-- C7: the outgoing request's mode is `discover` whenever a UI filter
parameter is set, except that person/company are forced to `search`
whenever a non-empty free-text term exists; and a `discover`-mode request
carries no `query` parameter. -/
theorem c7_mode_resolution (s : StoreState) (t : MType) (page : Int) :
    (s.filterParams ≠ [] →
      ¬((t = MType.person ∨ t = MType.company) ∧ hasTextQuery s = true) →
      (buildSearchUrl s t page).mode = "discover") ∧
    ((t = MType.person ∨ t = MType.company) → hasTextQuery s = true →
      (buildSearchUrl s t page).mode = "search") ∧
    ((buildSearchUrl s t page).mode = "discover" →
      ∀ kv ∈ (buildSearchUrl s t page).params, kv.1 ≠ "query") := by
  have hmode : (buildSearchUrl s t page).mode = resolveSearchMode s t := rfl
  refine ⟨?_, ?_, ?_⟩
  · intro hf hnot
    rw [hmode]
    unfold resolveSearchMode
    rw [if_neg hnot]
    simp [if_pos hf]
  · intro hpc htext
    rw [hmode]
    unfold resolveSearchMode
    rw [if_pos ⟨hpc, htext⟩]
  · intro hdisc kv hkv
    rw [hmode] at hdisc
    simp only [buildSearchUrl] at hkv
    rw [if_pos hdisc] at hkv
    have h1 := (List.mem_filter.mp hkv).1
    have h2 := (List.mem_filter.mp h1).2
    simpa using h2

/-- C7 witness: mode resolution evaluated on `c7Store` for a movie request
(filters force discover) and a person request (text forces search), and
the discover request's parameters carry no `query` key. -/
theorem c7_mode_resolution_witness :
    (buildSearchUrl c7Store MType.movie 1).mode = "discover" ∧
    (buildSearchUrl c7Store MType.person 1).mode = "search" ∧
    ∀ kv ∈ (buildSearchUrl c7Store MType.movie 1).params, kv.1 ≠ "query" :=
  ⟨(c7_mode_resolution c7Store MType.movie 1).1 (by decide) (by decide),
   (c7_mode_resolution c7Store MType.person 1).2.1 (Or.inl rfl) (by decide),
   (c7_mode_resolution c7Store MType.movie 1).2.2
     ((c7_mode_resolution c7Store MType.movie 1).1 (by decide) (by decide))⟩

/-!  ## C3: person/company gating on empty free-text term -/

@[simp]
lemma pageOf_fetchMediaResponse (s : StoreState) (t u : MType) (page : Int)
    (r : SearchResult) (aborted : Bool) :
    pageOf (fetchMediaResponse s u page r aborted) t = pageOf s t := by
  unfold fetchMediaResponse
  split_ifs <;> simp

lemma applyRespEvent_other_type (ab : Bool) (s : StoreState) (e : RespEvent)
    (t : MType) (h : e.rtype ≠ t) :
    resultsOf (applyRespEvent ab s e) t = resultsOf s t ∧
    hasMoreOf (applyRespEvent ab s e) t = hasMoreOf s t ∧
    totalOf (applyRespEvent ab s e) t = totalOf s t := by
  cases e with
  | searchResp u page r =>
    have h2 : t ≠ u := fun hc => h (by simp [RespEvent.rtype, hc])
    have := projT_fetchMediaResponse_ne s page r ab h2
    unfold projT at this
    exact ⟨congrArg (fun p => p.1) this, congrArg (fun p => p.2.1) this,
      congrArg (fun p => p.2.2.1) this⟩
  | loadMoreResp u out =>
    have h2 : t ≠ u := fun hc => h (by simp [RespEvent.rtype, hc])
    exact loadMoreMediaResponse_other s out ab h2

lemma fold_other_types (es : List RespEvent) (t : MType) :
    ∀ s : StoreState, (∀ e ∈ es, e.rtype ≠ t) →
      resultsOf (es.foldl (applyRespEvent false) s) t = resultsOf s t ∧
      hasMoreOf (es.foldl (applyRespEvent false) s) t = hasMoreOf s t ∧
      totalOf (es.foldl (applyRespEvent false) s) t = totalOf s t := by
  induction es with
  | nil => intro s _; exact ⟨rfl, rfl, rfl⟩
  | cons e rest ih =>
    intro s hall
    simp only [List.foldl_cons]
    obtain ⟨h1, h2, h3⟩ :=
      applyRespEvent_other_type false s e t (hall e (List.mem_cons_self _ _))
    obtain ⟨g1, g2, g3⟩ := ih (applyRespEvent false s e)
      fun e2 he2 => hall e2 (List.mem_cons_of_mem _ he2)
    exact ⟨g1.trans h1, g2.trans h2, g3.trans h3⟩

/-- C3 counterexample: the claim as stated fails outside the `both` view.
A store in the `movie` view with an active empty-term, filter-only query
(the state `setSearch` leaves behind) keeps `personHasMore = true` after
`search()` runs, because the single-category branch never touches the
person category; the claim demands `hasMore = false`. -/
theorem c3_counterexample :
    (searchStart
      (setSearch { initialState with mediaType := MSel.movie } ""
        (ParsedSearchQuery.mk "" [("with_genres", "28")] "discover" []))).1.personHasMore
      = true := by decide

/-- C3 (amended): with the `both` view selected, a search over an active
query whose trimmed free-text term is empty issues no person and no
company request, leaves both categories with empty results,
`hasMore = false` and zero totals, and the issued movie/tv fetches'
responses never modify those fields. -/
theorem c3_person_company_gating (s : StoreState) (q : ParsedSearchQuery)
    (hmt : s.mediaType = MSel.both) (hq : s.parsedSearch = some q)
    (hempty : trimString q.query = "") :
    (∀ r ∈ (searchStart s).2, r.rtype ≠ MType.person ∧ r.rtype ≠ MType.company) ∧
    (resultsOf (searchStart s).1 MType.person = [] ∧
     hasMoreOf (searchStart s).1 MType.person = false ∧
     totalOf (searchStart s).1 MType.person = 0 ∧
     resultsOf (searchStart s).1 MType.company = [] ∧
     hasMoreOf (searchStart s).1 MType.company = false ∧
     totalOf (searchStart s).1 MType.company = 0) ∧
    (∀ es : List RespEvent,
      (∀ e ∈ es, e.rtype ≠ MType.person ∧ e.rtype ≠ MType.company) →
      (resultsOf (es.foldl (applyRespEvent false) (searchStart s).1) MType.person = [] ∧
       hasMoreOf (es.foldl (applyRespEvent false) (searchStart s).1) MType.person = false ∧
       totalOf (es.foldl (applyRespEvent false) (searchStart s).1) MType.person = 0 ∧
       resultsOf (es.foldl (applyRespEvent false) (searchStart s).1) MType.company = [] ∧
       hasMoreOf (es.foldl (applyRespEvent false) (searchStart s).1) MType.company = false ∧
       totalOf (es.foldl (applyRespEvent false) (searchStart s).1) MType.company = 0)) := by
  have hcan : ∀ s2 : StoreState, s2.parsedSearch = some q →
      canFetchMediaType s2 MType.person = false ∧
      canFetchMediaType s2 MType.company = false := by
    intro s2 h2
    unfold canFetchMediaType
    rw [h2]
    simp [hempty]
  have hmain : (∀ r ∈ (searchStart s).2,
        r.rtype ≠ MType.person ∧ r.rtype ≠ MType.company) ∧
      (resultsOf (searchStart s).1 MType.person = [] ∧
       hasMoreOf (searchStart s).1 MType.person = false ∧
       totalOf (searchStart s).1 MType.person = 0 ∧
       resultsOf (searchStart s).1 MType.company = [] ∧
       hasMoreOf (searchStart s).1 MType.company = false ∧
       totalOf (searchStart s).1 MType.company = 0) := by
    unfold searchStart
    simp only []
    rw [hmt]
    simp only [issueFetch, canFetchMediaType, hq, hempty]
    simp [resultsOf, hasMoreOf, totalOf, Request.rtype, buildSearchUrl, hq, hempty]
  refine ⟨hmain.1, hmain.2, ?_⟩
  intro es hall
  obtain ⟨hp1, hp2, hp3⟩ := fold_other_types es MType.person (searchStart s).1
    fun e he => (hall e he).1
  obtain ⟨hc1, hc2, hc3⟩ := fold_other_types es MType.company (searchStart s).1
    fun e he => (hall e he).2
  obtain ⟨g1, g2, g3, g4, g5, g6⟩ := hmain.2
  exact ⟨hp1.trans g1, hp2.trans g2, hp3.trans g3,
    hc1.trans g4, hc2.trans g5, hc3.trans g6⟩

/-- C3 witness: the gating properties evaluated on `c3Store`. -/
theorem c3_person_company_gating_witness :
    (∀ r ∈ (searchStart c3Store).2, r.rtype ≠ MType.person ∧ r.rtype ≠ MType.company) ∧
    (resultsOf (searchStart c3Store).1 MType.person = [] ∧
     hasMoreOf (searchStart c3Store).1 MType.person = false ∧
     totalOf (searchStart c3Store).1 MType.person = 0 ∧
     resultsOf (searchStart c3Store).1 MType.company = [] ∧
     hasMoreOf (searchStart c3Store).1 MType.company = false ∧
     totalOf (searchStart c3Store).1 MType.company = 0) ∧
    (∀ es : List RespEvent,
      (∀ e ∈ es, e.rtype ≠ MType.person ∧ e.rtype ≠ MType.company) →
      (resultsOf (es.foldl (applyRespEvent false) (searchStart c3Store).1) MType.person = [] ∧
       hasMoreOf (es.foldl (applyRespEvent false) (searchStart c3Store).1) MType.person = false ∧
       totalOf (es.foldl (applyRespEvent false) (searchStart c3Store).1) MType.person = 0 ∧
       resultsOf (es.foldl (applyRespEvent false) (searchStart c3Store).1) MType.company = [] ∧
       hasMoreOf (es.foldl (applyRespEvent false) (searchStart c3Store).1) MType.company = false ∧
       totalOf (es.foldl (applyRespEvent false) (searchStart c3Store).1) MType.company = 0)) :=
  c3_person_company_gating c3Store
    (ParsedSearchQuery.mk "" [("with_genres", "28")] "discover" []) rfl rfl (by decide)

/-!  ## C5: no-op re-query -/

/-- C5 counterexample: a repeated `syncQuery` whose filter mapping is
deeply equal to the active query's (a permutation of the same key-value
pairs) but serialized in a different key order is NOT a no-op — the
`JSON.stringify` comparison reports a change, so the state is reset and
requests are issued, contradicting the claim's "zero network
requests". -/
theorem c5_counterexample :
    c5Reordered.query = c5Store.searchQuery ∧
    c5Store.parsedSearch = some (ParsedSearchQuery.mk "batman"
      [("query", "batman"), ("a", "1"), ("b", "2")] "search" []) ∧
    c5Reordered.tmdbParams.Perm [("query", "batman"), ("a", "1"), ("b", "2")] ∧
    (syncQuery c5Store (some c5Reordered)).2 ≠ [] :=
  ⟨rfl, rfl, by decide, by decide⟩

/-- C5 (amended): a repeated `syncQuery` with the identical term and a
filter mapping equal to the active query's in serialized form (same keys,
same values, same insertion order — instance identity is irrelevant) is a
no-op: the state is returned unchanged and zero requests are issued. -/
theorem c5_noop_requery (s : StoreState) (p q : ParsedSearchQuery)
    (hq : s.parsedSearch = some q) (hterm : s.searchQuery = p.query)
    (hfilters : p.tmdbParams = q.tmdbParams)
    (hnotclear : ¬(p.query = "" ∧ nonQueryKeys p.tmdbParams = [])) :
    syncQuery s (some p) = (s, []) := by
  unfold syncQuery
  dsimp only
  rw [if_neg (by simpa using hnotclear)]
  rw [hq]
  simp [hterm, hfilters]

/-- C5 witness: re-syncing `c5Store`'s own active query (same value, same
order) issues nothing and changes nothing. -/
theorem c5_noop_requery_witness :
    syncQuery c5Store (some (ParsedSearchQuery.mk "batman"
      [("query", "batman"), ("a", "1"), ("b", "2")] "search" [])) = (c5Store, []) :=
  c5_noop_requery c5Store _ _ rfl rfl rfl (by decide)

/-!  ## C9: category-state reset on query / filter change -/

/-- C9 counterexample: a filter change (`setFilters` with a new filter
mapping) leaves the person category's page counter at 3 — it is not reset
to its initial value 1 before the new fetches run, contradicting the
claim for the filter-change case. -/
theorem c9_counterexample :
    (setFilters c9Store [("with_genres", "28")]).1.personPage = 3 ∧
    (setFilters c9Store [("with_genres", "28")]).1.personPage ≠ 1 := by
  exact ⟨by decide, by decide⟩

/-- C9 (amended): a query change (`setSearch`) resets all four categories'
result lists, page counters, `hasMore` flags and totals to their initial
values before `search()` runs; a filter change (`setFilters`) resets only
the movie and tv result lists, page counters and `hasMore` flags before
the triggered `search()`, leaving the person and company entries (and all
totals) untouched at that point. -/
theorem c9_reset_on_change (s : StoreState) (raw : String) (p : ParsedSearchQuery)
    (params : List (String × String)) :
    ((setSearch s raw p).movieResults = [] ∧ (setSearch s raw p).tvResults = [] ∧
     (setSearch s raw p).personResults = [] ∧ (setSearch s raw p).companyResults = [] ∧
     (setSearch s raw p).moviePage = 1 ∧ (setSearch s raw p).tvPage = 1 ∧
     (setSearch s raw p).personPage = 1 ∧ (setSearch s raw p).companyPage = 1 ∧
     (setSearch s raw p).movieHasMore = true ∧ (setSearch s raw p).tvHasMore = true ∧
     (setSearch s raw p).personHasMore = true ∧ (setSearch s raw p).companyHasMore = true ∧
     (setSearch s raw p).totalResultsMovie = 0 ∧ (setSearch s raw p).totalResultsTV = 0 ∧
     (setSearch s raw p).totalResultsPerson = 0 ∧
     (setSearch s raw p).totalResultsCompany = 0) ∧
    ((setFiltersPrepare s params).movieResults = [] ∧
     (setFiltersPrepare s params).tvResults = [] ∧
     (setFiltersPrepare s params).moviePage = 1 ∧
     (setFiltersPrepare s params).tvPage = 1 ∧
     (setFiltersPrepare s params).movieHasMore = true ∧
     (setFiltersPrepare s params).tvHasMore = true ∧
     (setFiltersPrepare s params).personResults = s.personResults ∧
     (setFiltersPrepare s params).personPage = s.personPage ∧
     (setFiltersPrepare s params).personHasMore = s.personHasMore ∧
     (setFiltersPrepare s params).totalResultsPerson = s.totalResultsPerson ∧
     (setFiltersPrepare s params).companyResults = s.companyResults ∧
     (setFiltersPrepare s params).companyPage = s.companyPage ∧
     (setFiltersPrepare s params).companyHasMore = s.companyHasMore ∧
     (setFiltersPrepare s params).totalResultsCompany = s.totalResultsCompany) ∧
    (s.parsedSearch ≠ none ∨ params ≠ [] →
      setFilters s params = searchStart (setFiltersPrepare s params)) := by
  refine ⟨⟨rfl, rfl, rfl, rfl, rfl, rfl, rfl, rfl, rfl, rfl, rfl, rfl, rfl, rfl, rfl, rfl⟩,
    ⟨rfl, rfl, rfl, rfl, rfl, rfl, rfl, rfl, rfl, rfl, rfl, rfl, rfl, rfl⟩, ?_⟩
  intro h
  unfold setFilters
  rw [if_pos h]

/-- C9 witness: the filter-change branch evaluated on `c9Store`. -/
theorem c9_reset_on_change_witness :
    setFilters c9Store [("with_genres", "28")] =
      searchStart (setFiltersPrepare c9Store [("with_genres", "28")]) :=
  (c9_reset_on_change c9Store "" (ParsedSearchQuery.mk "" [] "search" [])
    [("with_genres", "28")]).2.2 (Or.inr (by decide))

end TrivenSearch
